import Mathlib

/-!
Shallow embedding of `state/chart_dependency.go` (helmfile chart dependency
resolution and lock-file management), together with theorems settling the
spec claims about it.

Modelling conventions:
* The injected file I/O capability (`readFile`/`writeFile`) is modelled as an
  explicit store `FS : String → Option String`; `none` models the Go
  "file does not exist" read error (`os.IsNotExist`).  Other I/O failure
  modes are not modelled.
* Go functions that may return an `error` or panic are modelled with
  `GoResult`: `.ok`, `.err` (a returned error) and `.panicked` (an abnormal
  process termination via the Go runtime).
* Go maps keyed by a string are modelled as association lists with a
  first-match lookup and a replace-first insert; the Go code keeps keys
  unique, under which the two representations agree.  Map iteration order is
  determinized to list order.
* YAML (un)marshalling is an external library boundary; the lock parser is
  passed in as an explicit `parse` argument.
-/

/-- Outcome of a Go call: normal return, returned error, or runtime panic. -/
inductive GoResult (α : Type) where
  | ok (a : α)
  | err (msg : String)
  | panicked (msg : String)
deriving DecidableEq

/-- A file store: path to contents; `none` means the file does not exist. -/
def FS : Type := String → Option String

/-- Write `content` at `path` (models `writeFile`, which always succeeds here). -/
def fsWrite (fs : FS) (path content : String) : FS :=
  fun p => if p = path then some content else fs p

/-- Models `filepath.Join wd file` for a nonempty relative member. -/
def pathJoin (dir file : String) : String := dir ++ "/" ++ file

/-- Models Go `strings.Split` on a one-character separator, on char lists. -/
def splitChars (sep : Char) : List Char → List (List Char)
  | [] => [[]]
  | c :: cs =>
    if c = sep then [] :: splitChars sep cs
    else
      match splitChars sep cs with
      | [] => [[c]]
      | g :: gs => (c :: g) :: gs

/-- Models Go `strings.Split s sep` for a one-character separator. -/
def stringSplit (s : String) (sep : Char) : List String :=
  (splitChars sep s.data).map String.mk

/-- Models Go `strings.TrimSuffix`. -/
def trimSuffix (s suffix : String) : String :=
  if suffix.data.isSuffixOf s.data then
    String.mk (s.data.take (s.data.length - suffix.data.length))
  else s

/-- Models Go `filepath.Base` for the plain file names this code passes it
(the component after the final slash). -/
def filepathBase (p : String) : String :=
  String.mk ((p.data.reverse.takeWhile (fun c => c != '/')).reverse)

/-- Modelled from the spec: `isLocalChart` is defined elsewhere in the
repository (only its caller is in scope).  Per §4.1 a reference is local when
it is a filesystem-style path, e.g. `./local/app`. -/
def isLocalChart (chart : String) : Bool :=
  List.isPrefixOf "./".data chart.data ||
    List.isPrefixOf "../".data chart.data ||
    List.isPrefixOf "/".data chart.data ||
    chart == "." || chart == ".."

/-- One unresolved chart dependency record (`unresolvedChartDependency`). -/
structure unresolvedChartDependency where
  ChartName : String
  Repository : String
  VersionConstraint : String
deriving DecidableEq

/-- One resolved chart dependency record (`ResolvedChartDependency`). -/
structure ResolvedChartDependency where
  ChartName : String
  Repository : String
  Version : String
deriving DecidableEq

/-- The `dependencies:` document written to `requirements.yaml`. -/
structure ChartRequirements where
  UnresolvedDependencies : List unresolvedChartDependency
deriving DecidableEq

/-- The set of unresolved dependencies, keyed by chart name (Go: a map;
here an association list whose keys the operations keep unique). -/
structure UnresolvedDependencies where
  deps : List unresolvedChartDependency
deriving DecidableEq

/-- First-match lookup by chart name (models Go map indexing). -/
def lookupDep : List unresolvedChartDependency → String → Option unresolvedChartDependency
  | [], _ => none
  | x :: xs, name => if x.ChartName = name then some x else lookupDep xs name

/-- Replace-first insert by chart name (models Go map assignment). -/
def insertRep : List unresolvedChartDependency → unresolvedChartDependency → List unresolvedChartDependency
  | [], dep => [dep]
  | x :: xs, dep => if x.ChartName = dep.ChartName then dep :: xs else x :: insertRep xs dep

/-- Go render of an `unresolvedChartDependency` via `%v` (used in the
conflict error message). -/
def goFmtDep (d : unresolvedChartDependency) : String :=
  "\x7b" ++ d.ChartName ++ " " ++ d.Repository ++ " " ++ d.VersionConstraint ++ "\x7d"

/-- The exact error text `UnresolvedDependencies.add` produces on a conflict. -/
def conflictMsg (name : String) (existing incoming : unresolvedChartDependency) : String :=
  "duplicate chart dependency \"" ++ name ++
    "\". you can\x27t have two or more charts with the same name but with different urls or versions: existing=" ++
    goFmtDep existing ++ ", new=" ++ goFmtDep incoming

/-- Models `(*UnresolvedDependencies).add`: reject a same-name entry whose
repository or constraint differs, otherwise store the record.  On the error
path the Go method returns before the map assignment, so the set is
unchanged; here that is rendered by returning no new set in `.error`. -/
def UnresolvedDependencies.add (d : UnresolvedDependencies)
    (dep : unresolvedChartDependency) : Except String UnresolvedDependencies :=
  match lookupDep d.deps dep.ChartName with
  | some existing =>
    if existing.Repository ≠ dep.Repository ∨ existing.VersionConstraint ≠ dep.VersionConstraint then
      .error (conflictMsg dep.ChartName existing dep)
    else .ok ⟨insertRep d.deps dep⟩
  | none => .ok ⟨insertRep d.deps dep⟩

/-- Models `(*UnresolvedDependencies).Add`. -/
def UnresolvedDependencies.Add (d : UnresolvedDependencies)
    (chart url versionConstraint : String) : Except String UnresolvedDependencies :=
  d.add ⟨chart, url, versionConstraint⟩

/-- The body of the `ToChartRequirements` loop: the per-iteration copy of
each entry has an empty constraint replaced by `"*"`; entries are appended
in iteration order. -/
def reqLoop : List unresolvedChartDependency → List unresolvedChartDependency
  | [] => []
  | d :: rest =>
    (if d.VersionConstraint = "" then { d with VersionConstraint := "*" } else d) :: reqLoop rest

/-- Models `(*UnresolvedDependencies).ToChartRequirements`. -/
def UnresolvedDependencies.ToChartRequirements (d : UnresolvedDependencies) : ChartRequirements :=
  ⟨reqLoop d.deps⟩

/-- The method call `d.ToChartRequirements()` seen with its receiver: the
returned requirements paired with the receiver's `deps` after the call.
The Go loop ranges over copies of the entries and never assigns into the
backing map, so the receiver is returned unmodified. -/
def UnresolvedDependencies.toChartRequirementsRun (d : UnresolvedDependencies) :
    ChartRequirements × UnresolvedDependencies :=
  (d.ToChartRequirements, d)

/-- The set of resolved dependencies parsed from a lock file. -/
structure ResolvedDependencies where
  deps : List ResolvedChartDependency
deriving DecidableEq

/-- First-match lookup by chart name in a resolved set. -/
def lookupResolved : List ResolvedChartDependency → String → Option ResolvedChartDependency
  | [], _ => none
  | x :: xs, name => if x.ChartName = name then some x else lookupResolved xs name

/-- Models `(*ResolvedDependencies).add`: duplicate names are rejected. -/
def ResolvedDependencies.add (d : ResolvedDependencies)
    (dep : ResolvedChartDependency) : Except String ResolvedDependencies :=
  match lookupResolved d.deps dep.ChartName with
  | some _ => .error ("duplicate chart dependency \"" ++ dep.ChartName ++ "\"")
  | none => .ok ⟨d.deps ++ [dep]⟩

/-- The exact error text `ResolvedDependencies.Get` produces on a miss. -/
def notFoundMsg (chart : String) : String :=
  "no resolved dependency found for \"" ++ chart ++ "\""

/-- Models `(*ResolvedDependencies).Get`. -/
def ResolvedDependencies.Get (d : ResolvedDependencies) (chart : String) : Except String String :=
  match lookupResolved d.deps chart with
  | none => .error (notFoundMsg chart)
  | some dep => .ok dep.Version

/-- Classification of a chart reference by `resolveRemoteChart`:
`.loc` models the Go return `("", "", false)`, `.remote repo chart` models
`(repo, chart, true)`, and `.panicked` models the Go `panic` call. -/
inductive ChartClass where
  | loc
  | remote (repo chart : String)
  | panicked (msg : String)
deriving DecidableEq

/-- True exactly on the `panicked` classification. -/
def ChartClass.isPanicked : ChartClass → Bool
  | .panicked _ => true
  | _ => false

/-- Models `resolveRemoteChart`: local references are not managed; a
non-local reference must split on `/` into exactly two parts, otherwise the
Go code panics with `unsupported format of chart name: ...`. -/
def resolveRemoteChart (repoAndChart : String) : ChartClass :=
  if isLocalChart repoAndChart then .loc
  else
    match stringSplit repoAndChart '/' with
    | [repo, chart] => .remote repo chart
    | _ => .panicked ("unsupported format of chart name: " ++ repoAndChart)

/-- A repository entry of the helmfile state (name/alias and URL). -/
structure RepositorySpec where
  Name : String
  URL : String
deriving DecidableEq

/-- A release entry of the helmfile state (chart reference and version). -/
structure ReleaseSpec where
  Chart : String
  Version : String
deriving DecidableEq

/-- Modelled from the spec: the consuming document (`HelmState`, defined in
another file of the repository) restricted to the fields this code reads:
the state file path, the repository alias list and the release list. -/
structure HelmState where
  FilePath : String
  Repositories : List RepositorySpec
  Releases : List ReleaseSpec
deriving DecidableEq

/-- The `repoToURL` map built from the repository list (Go map insertion:
a later entry with the same name wins). -/
def repoToURL : List RepositorySpec → String → Option String
  | [], _ => none
  | r :: rest, name =>
    match repoToURL rest name with
    | some u => some u
    | none => if r.Name = name then some r.URL else none

/-- The dependency manager (`chartDependencyManager`): its lock identity.
The injected `readFile`/`writeFile` pair is the explicit `FS` argument of
each operation, and the logger is irrelevant to the data flow. -/
structure Manager where
  Name : String
deriving DecidableEq

/-- Models `lockFileName`. -/
def Manager.lockFileName (m : Manager) : String := m.Name ++ ".lock"

/-- Fold of `ResolvedDependencies.add` over the parsed lock entries
(the loop in `Resolve`). -/
def buildResolved : ResolvedDependencies → List ResolvedChartDependency →
    Except String ResolvedDependencies
  | acc, [] => .ok acc
  | acc, d :: rest =>
    match acc.add d with
    | .error e => .error e
    | .ok acc' => buildResolved acc' rest

/-- Models `(*chartDependencyManager).Resolve`.  `parse` stands for
`yaml.Unmarshal` into `ChartLockedRequirements` (an external library
boundary).  Note the translated source: when the lock file does not exist
the function returns `(nil, true, nil)` — the boolean is `true`.  The
`unresolved` argument is accepted and, as in the source, unused. -/
def Manager.Resolve (m : Manager)
    (parse : String → Except String (List ResolvedChartDependency))
    (unresolved : UnresolvedDependencies) (fs : FS) :
    Option ResolvedDependencies × Bool × Option String :=
  match fs m.lockFileName with
  | none => (none, true, none)
  | some content =>
    match parse content with
    | .error e => (none, false, some e)
    | .ok deps =>
      match buildResolved ⟨[]⟩ deps with
      | .error e => (none, false, some e)
      | .ok resolved => (some resolved, true, none)

/-- The Go runtime's message for dereferencing a nil pointer. -/
def nilDerefMsg : String := "runtime error: invalid memory address or nil pointer dereference"

/-- The release-rewriting loop of `resolveDependencies`, with the Go heap
made explicit.  `updated := *st` copies only the struct header, so the loop
writes `updated.Releases[i].Version = ver` through the slice that is shared
with the caller's document; the second component is the content of that
shared backing array when the loop exits (normally or early).  A nil
`resolvedOpt` models the nil `*ResolvedDependencies`; calling `Get` on it
dereferences nil and panics. -/
def mergeLoop (repoMap : String → Option String) (resolvedOpt : Option ResolvedDependencies) :
    List ReleaseSpec → GoResult Unit × List ReleaseSpec
  | [] => (.ok (), [])
  | r :: rest =>
    match resolveRemoteChart r.Chart with
    | .panicked msg => (.panicked msg, r :: rest)
    | .loc =>
      match mergeLoop repoMap resolvedOpt rest with
      | (o, rest') => (o, r :: rest')
    | .remote repo chart =>
      match repoMap repo with
      | none =>
        match mergeLoop repoMap resolvedOpt rest with
        | (o, rest') => (o, r :: rest')
      | some _ =>
        match resolvedOpt with
        | none => (.panicked nilDerefMsg, r :: rest)
        | some resolved =>
          match resolved.Get chart with
          | .error e => (.err e, r :: rest)
          | .ok ver =>
            match mergeLoop repoMap resolvedOpt rest with
            | (o, rest') => (o, { r with Version := ver } :: rest')

/-- Models `resolveDependencies`.  The first component is the returned
`(*HelmState, error)` (or a propagated panic); the second component is the
content of the caller's `st.Releases` backing array after the call — the
loop writes through the slice shared by `updated := *st`, so on the
success path the caller's array coincides with the returned document's
releases. -/
def resolveDependencies (st : HelmState) (depMan : Manager)
    (parse : String → Except String (List ResolvedChartDependency))
    (unresolved : UnresolvedDependencies) (fs : FS) :
    GoResult HelmState × List ReleaseSpec :=
  match depMan.Resolve parse unresolved fs with
  | (_, _, some e) =>
    (.err ("unable to resolve " ++ toString unresolved.deps.length ++ " deps: " ++ e), st.Releases)
  | (_, false, none) => (.ok st, st.Releases)
  | (resolvedOpt, true, none) =>
    match mergeLoop (repoToURL st.Repositories) resolvedOpt st.Releases with
    | (.ok _, rels) => (.ok { st with Releases := rels }, rels)
    | (.err e, rels) => (.err e, rels)
    | (.panicked msg, rels) => (.panicked msg, rels)

/-- The body of the scan loop in `getUnresolvedDependenciess` for one
release: skip local charts, skip aliases missing from the repository map,
otherwise `Add` the chart with the release's version as constraint. -/
def scanStep (repoMap : String → Option String) (unresolved : UnresolvedDependencies)
    (r : ReleaseSpec) : GoResult UnresolvedDependencies :=
  match resolveRemoteChart r.Chart with
  | .panicked msg => .panicked msg
  | .loc => .ok unresolved
  | .remote repo chart =>
    match repoMap repo with
    | none => .ok unresolved
    | some url =>
      match unresolved.Add chart url r.Version with
      | .error e => .err e
      | .ok u' => .ok u'

/-- The scan loop of `getUnresolvedDependenciess` over the release list. -/
def scanReleases (repoMap : String → Option String) :
    UnresolvedDependencies → List ReleaseSpec → GoResult UnresolvedDependencies
  | acc, [] => .ok acc
  | acc, r :: rest =>
    match scanStep repoMap acc r with
    | .ok acc' => scanReleases repoMap acc' rest
    | .err e => .err e
    | .panicked msg => .panicked msg

/-- The lock identity computed by `getUnresolvedDependenciess`: the state
file's base name with `.gotmpl`, `.yaml`, `.yml` suffixes stripped in order. -/
def lockIdentity (filePath : String) : String :=
  trimSuffix (trimSuffix (trimSuffix (filepathBase filePath) ".gotmpl") ".yaml") ".yml"

/-- Models `getUnresolvedDependenciess` (source spelling kept). -/
def getUnresolvedDependenciess (st : HelmState) :
    GoResult (String × UnresolvedDependencies) :=
  match scanReleases (repoToURL st.Repositories) ⟨[]⟩ st.Releases with
  | .err e => .err e
  | .panicked msg => .panicked msg
  | .ok unresolved => .ok (lockIdentity st.FilePath, unresolved)

/-- Models `(*HelmState).mergeLockedDependencies`.  As in
`resolveDependencies`, the second component is the caller's `st.Releases`
backing array after the call. -/
def mergeLockedDependencies (st : HelmState)
    (parse : String → Except String (List ResolvedChartDependency)) (fs : FS) :
    GoResult HelmState × List ReleaseSpec :=
  match getUnresolvedDependenciess st with
  | .err e => (.err e, st.Releases)
  | .panicked msg => (.panicked msg, st.Releases)
  | .ok (filename, unresolved) =>
    if unresolved.deps.length = 0 then (.ok st, st.Releases)
    else resolveDependencies st ⟨filename⟩ parse unresolved fs

/-- Modelled from the spec: the `yaml.Marshal` rendering of a
`ChartRequirements` document (external library boundary; §6 fixes the shape:
top-level key `dependencies`, records with `name`, `repository`, `version`). -/
def marshalChartRequirements (r : ChartRequirements) : String :=
  "dependencies:\n" ++ String.join (r.UnresolvedDependencies.map (fun d =>
    "- name: " ++ d.ChartName ++ "\n  repository: " ++ d.Repository ++
      "\n  version: " ++ d.VersionConstraint ++ "\n"))

/-- The workspace-staging prefix of `Update`: write `Chart.yaml` and
`requirements.yaml` into the workspace. -/
def Manager.stage0 (m : Manager) (wd : String) (unresolved : UnresolvedDependencies)
    (fs : FS) : FS :=
  fsWrite
    (fsWrite fs (pathJoin wd "Chart.yaml") ("name: " ++ m.Name ++ "\n"))
    (pathJoin wd "requirements.yaml")
    (marshalChartRequirements unresolved.ToChartRequirements)

/-- The staging steps of `Update` up to (not including) the external updater
call: `Chart.yaml`, `requirements.yaml`, and the copy of an existing
committed lock into the workspace as `requirements.lock`. -/
def Manager.stage (m : Manager) (wd : String) (unresolved : UnresolvedDependencies)
    (fs : FS) : FS :=
  match m.stage0 wd unresolved fs m.lockFileName with
  | some c => fsWrite (m.stage0 wd unresolved fs) (pathJoin wd "requirements.lock") c
  | none => m.stage0 wd unresolved fs

/-- Models `(*chartDependencyManager).Update`.  `updater` stands for
`shell.UpdateDeps(wd)` (the external tool; it transforms the store or
fails), `parse` as in `Resolve`.  Returns the Go result paired with the
final file store. -/
def Manager.Update (m : Manager)
    (parse : String → Except String (List ResolvedChartDependency))
    (updater : FS → Except String FS) (wd : String)
    (unresolved : UnresolvedDependencies) (fs : FS) :
    GoResult (Option ResolvedDependencies) × FS :=
  match updater (m.stage wd unresolved fs) with
  | .error e => (.err e, m.stage wd unresolved fs)
  | .ok fs4 =>
    match fs4 (pathJoin wd "requirements.lock") with
    | none =>
      (.err ("open " ++ pathJoin wd "requirements.lock" ++ ": no such file or directory"), fs4)
    | some updatedLockFileContent =>
      match m.Resolve parse unresolved (fsWrite fs4 m.lockFileName updatedLockFileContent) with
      | (_, _, some e) => (.err e, fsWrite fs4 m.lockFileName updatedLockFileContent)
      | (resolvedOpt, _, none) => (.ok resolvedOpt, fsWrite fs4 m.lockFileName updatedLockFileContent)

/-! ### Theorems settling the claims -/

/-- C1: the spec says `Resolve` on a nonexistent lock returns
`(nil, false, nil)`.  The translated source instead returns `(nil, true, nil)`:
the `lockfileExists` boolean is inverted on the file-does-not-exist branch
(its only caller then proceeds past the `!lockfileExists` guard with a nil
resolved set).  This theorem evaluates `Manager.Resolve` at a store with no
lock file, for every unresolved set. -/
theorem Resolve_missing_lock_reports_exists (u : UnresolvedDependencies) :
    Manager.Resolve ⟨"helmfile"⟩ (fun _ => Except.ok []) u (fun _ => none) =
      (none, true, none) := rfl

/-- C2: the spec says `mergeLockedDependencies` on a document with a
dependency-managed release and no lock file returns the document unchanged.
Because `Resolve` reports `lockfileExists = true` with a nil set on that
branch, the merge loop instead dereferences the nil `*ResolvedDependencies`
and the process panics.  Evaluated at a one-release, one-repository state
with an empty store. -/
theorem mergeLockedDependencies_no_lock_panics :
    (mergeLockedDependencies
        ⟨"helmfile.yaml", [⟨"myrepo", "https://example.com/charts"⟩], [⟨"myrepo/foo", ""⟩]⟩
        (fun _ => Except.ok []) (fun _ => none)).1 =
      GoResult.panicked nilDerefMsg := by decide

/-- The document, parser, store and unresolved set of the concrete merge
scenario used to exhibit the shared-slice mutation in `resolveDependencies`. -/
def sampleMergeState : HelmState :=
  ⟨"helmfile.yaml", [⟨"myrepo", "u"⟩], [⟨"myrepo/envoy", ""⟩, ⟨"./local/app", "x"⟩]⟩

/-- Lock parser of the concrete merge scenario: the committed lock "L"
resolves `envoy` to version `1.2.3`. -/
def sampleLockParse : String → Except String (List ResolvedChartDependency) :=
  fun s => if s = "L" then Except.ok [⟨"envoy", "u", "1.2.3"⟩] else Except.ok []

/-- File store of the concrete merge scenario: only `helmfile.lock` exists. -/
def sampleLockFS : FS := fun p => if p = "helmfile.lock" then some "L" else none

/-- Unresolved set of the concrete merge scenario. -/
def sampleUnresolved : UnresolvedDependencies := ⟨[⟨"envoy", "u", ""⟩]⟩

/-- C3: the spec says `resolveDependencies` produces a structurally
independent document and leaves the caller's document untouched.  The
translated source copies only the struct header (`updated := *st`), so the
release-version writes go through the slice backing array shared with the
caller: after the call the caller's `Releases` (the second component of the
model) holds the rewritten versions and differs from the pre-call value. -/
theorem resolveDependencies_mutates_caller :
    resolveDependencies sampleMergeState ⟨"helmfile"⟩ sampleLockParse sampleUnresolved sampleLockFS =
      (.ok ⟨"helmfile.yaml", [⟨"myrepo", "u"⟩], [⟨"myrepo/envoy", "1.2.3"⟩, ⟨"./local/app", "x"⟩]⟩,
        [⟨"myrepo/envoy", "1.2.3"⟩, ⟨"./local/app", "x"⟩]) ∧
    [(⟨"myrepo/envoy", "1.2.3"⟩ : ReleaseSpec), ⟨"./local/app", "x"⟩] ≠ sampleMergeState.Releases := by
  decide

/-- C4: the spec says a non-local reference that does not split into exactly
two segments yields a recoverable `MalformedReferenceError`.  The translated
source instead calls `panic`, terminating the process abnormally; evaluated
at the spec's own scenario `"a/b/c"`. -/
theorem resolveRemoteChart_malformed_panics :
    resolveRemoteChart "a/b/c" =
      ChartClass.panicked "unsupported format of chart name: a/b/c" := by decide

/-- Looking up the inserted chart name finds the inserted record. -/
theorem lookupDep_insertRep_self (l : List unresolvedChartDependency)
    (dep : unresolvedChartDependency) :
    lookupDep (insertRep l dep) dep.ChartName = some dep := by
  induction l with
  | nil => simp [insertRep, lookupDep]
  | cons x xs ih =>
    by_cases h : x.ChartName = dep.ChartName
    · simp [insertRep, h, lookupDep]
    · simp [insertRep, h, lookupDep, ih]

/-- Re-inserting the record just inserted leaves the list unchanged. -/
theorem insertRep_insertRep_self (l : List unresolvedChartDependency)
    (dep : unresolvedChartDependency) :
    insertRep (insertRep l dep) dep = insertRep l dep := by
  induction l with
  | nil => simp [insertRep]
  | cons x xs ih =>
    by_cases h : x.ChartName = dep.ChartName
    · simp [insertRep, h]
    · simp [insertRep, h, ih]

/-- C6: `Add` is idempotent — adding the spec a second time succeeds and
returns the same set — and a second add under the same name with a divergent
repository URL or constraint fails with the conflict error naming both the
existing and the incoming spec; on that path the Go method returns before
the map assignment, so the set is unchanged. -/
theorem UnresolvedDependencies_add_dedup (d : UnresolvedDependencies)
    (dep : unresolvedChartDependency) :
    (∀ d', d.add dep = .ok d' → d'.add dep = .ok d') ∧
    (∀ existing, lookupDep d.deps dep.ChartName = some existing →
      existing.Repository ≠ dep.Repository ∨ existing.VersionConstraint ≠ dep.VersionConstraint →
      d.add dep = .error (conflictMsg dep.ChartName existing dep)) := by
  constructor
  · intro d' h
    have hd' : d' = ⟨insertRep d.deps dep⟩ := by
      unfold UnresolvedDependencies.add at h
      cases hl : lookupDep d.deps dep.ChartName with
      | none =>
        rw [hl] at h
        dsimp only at h
        exact (Except.ok.inj h).symm
      | some ex =>
        rw [hl] at h
        dsimp only at h
        by_cases hc : ex.Repository ≠ dep.Repository ∨ ex.VersionConstraint ≠ dep.VersionConstraint
        · rw [if_pos hc] at h; cases h
        · rw [if_neg hc] at h; exact (Except.ok.inj h).symm
    subst hd'
    unfold UnresolvedDependencies.add
    dsimp only
    rw [lookupDep_insertRep_self d.deps dep]
    dsimp only
    rw [if_neg (by simp), insertRep_insertRep_self]
  · intro ex hl hc
    unfold UnresolvedDependencies.add
    rw [hl]
    dsimp only
    rw [if_pos hc]

/-- Witness for C6: on the singleton set holding `envoy`, re-adding the same
spec is a no-op and adding a divergent constraint yields the conflict error. -/
theorem UnresolvedDependencies_add_dedup_witness :
    (UnresolvedDependencies.add ⟨[⟨"envoy", "u", "1.2.0"⟩]⟩ ⟨"envoy", "u", "1.2.0"⟩ =
      .ok ⟨[⟨"envoy", "u", "1.2.0"⟩]⟩) ∧
    (UnresolvedDependencies.add ⟨[⟨"envoy", "u", "1.2.0"⟩]⟩ ⟨"envoy", "u", "1.3.0"⟩ =
      .error (conflictMsg "envoy" ⟨"envoy", "u", "1.2.0"⟩ ⟨"envoy", "u", "1.3.0"⟩)) := by
  constructor
  · exact (UnresolvedDependencies_add_dedup ⟨[]⟩ ⟨"envoy", "u", "1.2.0"⟩).1
      ⟨[⟨"envoy", "u", "1.2.0"⟩]⟩ (by rfl)
  · exact (UnresolvedDependencies_add_dedup ⟨[⟨"envoy", "u", "1.2.0"⟩]⟩ ⟨"envoy", "u", "1.3.0"⟩).2
      ⟨"envoy", "u", "1.2.0"⟩ (by decide) (by decide)

/-- Each input entry reappears in the requirements loop's output with an
empty constraint defaulted to `"*"`. -/
theorem reqLoop_mem (l : List unresolvedChartDependency) (dep : unresolvedChartDependency)
    (h : dep ∈ l) :
    (if dep.VersionConstraint = "" then { dep with VersionConstraint := "*" } else dep) ∈
      reqLoop l := by
  induction l with
  | nil => cases h
  | cons x xs ih =>
    cases h with
    | head => exact List.mem_cons_self _ _
    | tail _ hx => exact List.mem_cons_of_mem _ (ih hx)

/-- C7: every stored spec is emitted by `ToChartRequirements` with an empty
constraint serialized as `"*"` (a nonempty constraint passes through
verbatim), while the receiver set after the call is unchanged and still
holds the original record with its original (possibly empty) constraint. -/
theorem ToChartRequirements_defaults (d : UnresolvedDependencies)
    (dep : unresolvedChartDependency) (hmem : dep ∈ d.deps) :
    (∃ e ∈ d.ToChartRequirements.UnresolvedDependencies,
        e.ChartName = dep.ChartName ∧ e.Repository = dep.Repository ∧
        e.VersionConstraint =
          (if dep.VersionConstraint = "" then "*" else dep.VersionConstraint)) ∧
    d.toChartRequirementsRun.2 = d ∧ dep ∈ d.toChartRequirementsRun.2.deps := by
  refine ⟨⟨(if dep.VersionConstraint = "" then { dep with VersionConstraint := "*" } else dep),
    reqLoop_mem d.deps dep hmem, ?_, ?_, ?_⟩, rfl, hmem⟩
  · by_cases h : dep.VersionConstraint = "" <;> simp [h]
  · by_cases h : dep.VersionConstraint = "" <;> simp [h]
  · by_cases h : dep.VersionConstraint = "" <;> simp [h]

/-- Witness for C7: the spec `envoy` with empty constraint serializes with
version `"*"` while the set still holds the empty constraint. -/
theorem ToChartRequirements_defaults_witness :
    (∃ e ∈ (UnresolvedDependencies.ToChartRequirements
        ⟨[⟨"envoy", "u", ""⟩]⟩).UnresolvedDependencies,
        e.ChartName = "envoy" ∧ e.Repository = "u" ∧
        e.VersionConstraint = (if "" = "" then "*" else "")) ∧
    (UnresolvedDependencies.toChartRequirementsRun ⟨[⟨"envoy", "u", ""⟩]⟩).2 =
      ⟨[⟨"envoy", "u", ""⟩]⟩ ∧
    (⟨"envoy", "u", ""⟩ : unresolvedChartDependency) ∈
      (UnresolvedDependencies.toChartRequirementsRun ⟨[⟨"envoy", "u", ""⟩]⟩).2.deps :=
  ToChartRequirements_defaults ⟨[⟨"envoy", "u", ""⟩]⟩ ⟨"envoy", "u", ""⟩ (by decide)

/-- C9: a release whose chart reference classifies as remote under an alias
with no entry in the repository map contributes nothing to the scan — the
scan of the release list equals the scan without that release, and in
particular no error arises from it. -/
theorem scanReleases_skips_unknown_alias (repoMap : String → Option String)
    (acc : UnresolvedDependencies) (r : ReleaseSpec) (rest : List ReleaseSpec)
    (repo chart : String)
    (hclass : resolveRemoteChart r.Chart = .remote repo chart)
    (hmap : repoMap repo = none) :
    scanReleases repoMap acc (r :: rest) = scanReleases repoMap acc rest := by
  simp [scanReleases, scanStep, hclass, hmap]

/-- Witness for C9: the spec's scenario — `otherrepo/foo` with only `myrepo`
mapped — is skipped by the scan. -/
theorem scanReleases_skips_unknown_alias_witness :
    scanReleases (repoToURL [⟨"myrepo", "u"⟩]) ⟨[]⟩ [⟨"otherrepo/foo", "1.0"⟩] =
      scanReleases (repoToURL [⟨"myrepo", "u"⟩]) ⟨[]⟩ [] :=
  scanReleases_skips_unknown_alias (repoToURL [⟨"myrepo", "u"⟩]) ⟨[]⟩ ⟨"otherrepo/foo", "1.0"⟩ []
    "otherrepo" "foo" (by decide) (by decide)

/-- Any joined workspace path contains a slash. -/
theorem mem_data_pathJoin (wd f : String) : '/' ∈ (pathJoin wd f).data := by
  unfold pathJoin
  rw [String.data_append, String.data_append]
  exact List.mem_append.mpr (Or.inl (List.mem_append.mpr (Or.inr (by decide))))

/-- A lock identity without a slash (a base name) yields a slash-free lock
file name. -/
theorem no_slash_lockFileName (m : Manager) (hname : '/' ∉ m.Name.data) :
    '/' ∉ m.lockFileName.data := by
  unfold Manager.lockFileName
  rw [String.data_append]
  intro h
  rcases List.mem_append.mp h with h | h
  · exact hname h
  · exact absurd h (by decide)

/-- No workspace path coincides with the slash-free lock file name. -/
theorem lockFileName_ne_pathJoin (m : Manager) (wd f : String)
    (hname : '/' ∉ m.Name.data) : pathJoin wd f ≠ m.lockFileName := by
  intro he
  apply no_slash_lockFileName m hname
  rw [← he]
  exact mem_data_pathJoin wd f

/-- Reading a path other than the one written sees the old store. -/
theorem fsWrite_ne (fs : FS) (path content q : String) (h : q ≠ path) :
    fsWrite fs path content q = fs q := by
  simp [fsWrite, h]

/-- Writing the workspace descriptor and requirements files does not touch
the committed lock. -/
theorem stage0_preserves_lockfile (m : Manager) (wd : String)
    (u : UnresolvedDependencies) (fs : FS) (hname : '/' ∉ m.Name.data) :
    m.stage0 wd u fs m.lockFileName = fs m.lockFileName := by
  unfold Manager.stage0
  rw [fsWrite_ne _ _ _ _ (Ne.symm (lockFileName_ne_pathJoin m wd _ hname)),
    fsWrite_ne _ _ _ _ (Ne.symm (lockFileName_ne_pathJoin m wd _ hname))]

/-- The whole staging prefix of `Update` (including the copy of a prior lock
into the workspace) leaves the committed lock untouched. -/
theorem stage_preserves_lockfile (m : Manager) (wd : String)
    (u : UnresolvedDependencies) (fs : FS) (hname : '/' ∉ m.Name.data) :
    m.stage wd u fs m.lockFileName = fs m.lockFileName := by
  unfold Manager.stage
  cases hc : m.stage0 wd u fs m.lockFileName with
  | none => exact stage0_preserves_lockfile m wd u fs hname
  | some c =>
    dsimp only
    rw [fsWrite_ne _ _ _ _ (Ne.symm (lockFileName_ne_pathJoin m wd _ hname))]
    exact stage0_preserves_lockfile m wd u fs hname

/-- C5: if the external updater invocation fails, `Update` returns that
error and the committed lock file's content is byte-identical to its content
before the call — `Update` writes the lock only after the updater has
returned successfully.  The hypothesis that the manager name holds no slash
reflects its construction from `filepath.Base`. -/
theorem Update_lock_intact_on_updater_failure (m : Manager)
    (parse : String → Except String (List ResolvedChartDependency))
    (updater : FS → Except String FS) (wd : String)
    (unresolved : UnresolvedDependencies) (fs : FS) (e : String)
    (hname : '/' ∉ m.Name.data)
    (hup : updater (m.stage wd unresolved fs) = Except.error e) :
    (m.Update parse updater wd unresolved fs).1 = .err e ∧
    (m.Update parse updater wd unresolved fs).2 m.lockFileName = fs m.lockFileName := by
  unfold Manager.Update
  rw [hup]
  exact ⟨rfl, stage_preserves_lockfile m wd unresolved fs hname⟩

/-- Witness for C5: a failing updater leaves the committed `helmfile.lock`
holding its prior bytes and surfaces the tool error. -/
theorem Update_lock_intact_on_updater_failure_witness :
    ((Manager.Update ⟨"helmfile"⟩ (fun _ => Except.ok [])
        (fun _ => Except.error "exit status 1") "tmp" ⟨[]⟩
        (fun p => if p = "helmfile.lock" then some "old" else none)).1 =
      .err "exit status 1") ∧
    ((Manager.Update ⟨"helmfile"⟩ (fun _ => Except.ok [])
        (fun _ => Except.error "exit status 1") "tmp" ⟨[]⟩
        (fun p => if p = "helmfile.lock" then some "old" else none)).2
        (Manager.lockFileName ⟨"helmfile"⟩) =
      (fun p => if p = "helmfile.lock" then some "old" else none : FS)
        (Manager.lockFileName ⟨"helmfile"⟩)) :=
  Update_lock_intact_on_updater_failure ⟨"helmfile"⟩ (fun _ => Except.ok [])
    (fun _ => Except.error "exit status 1") "tmp" ⟨[]⟩
    (fun p => if p = "helmfile.lock" then some "old" else none) "exit status 1"
    (by decide) rfl

/-- C10: `Update` commits the workspace lock content to the persisted lock
file before parsing it; if that content is unparsable, or parses but holds a
duplicate name, `Update` returns the error while the persisted lock already
holds the new malformed content. -/
theorem Update_commits_before_parse (m : Manager)
    (parse : String → Except String (List ResolvedChartDependency))
    (updater : FS → Except String FS) (wd : String)
    (unresolved : UnresolvedDependencies) (fs fs4 : FS) (bad e : String)
    (hup : updater (m.stage wd unresolved fs) = Except.ok fs4)
    (hread : fs4 (pathJoin wd "requirements.lock") = some bad)
    (hbad : parse bad = Except.error e ∨
      ∃ l, parse bad = Except.ok l ∧ buildResolved ⟨[]⟩ l = Except.error e) :
    (m.Update parse updater wd unresolved fs).1 = .err e ∧
    (m.Update parse updater wd unresolved fs).2 m.lockFileName = some bad := by
  have hfs5 : fsWrite fs4 m.lockFileName bad m.lockFileName = some bad := by
    simp [fsWrite]
  have hres : m.Resolve parse unresolved (fsWrite fs4 m.lockFileName bad) =
      (none, false, some e) := by
    unfold Manager.Resolve
    rw [hfs5]
    dsimp only
    rcases hbad with h | ⟨l, hl, hb⟩
    · rw [h]
    · rw [hl]
      dsimp only
      rw [hb]
  unfold Manager.Update
  rw [hup]
  dsimp only
  rw [hread]
  dsimp only
  rw [hres]
  exact ⟨rfl, hfs5⟩

/-- Witness for C10: an updater whose output lock is the unparsable "bad"
makes `Update` fail, yet the committed `helmfile.lock` already holds "bad". -/
theorem Update_commits_before_parse_witness :
    ((Manager.Update ⟨"helmfile"⟩
        (fun s => if s = "bad" then Except.error "yaml: unmarshal errors" else Except.ok [])
        (fun g => Except.ok (fsWrite g (pathJoin "tmp" "requirements.lock") "bad"))
        "tmp" ⟨[]⟩ (fun _ => none)).1 = .err "yaml: unmarshal errors") ∧
    ((Manager.Update ⟨"helmfile"⟩
        (fun s => if s = "bad" then Except.error "yaml: unmarshal errors" else Except.ok [])
        (fun g => Except.ok (fsWrite g (pathJoin "tmp" "requirements.lock") "bad"))
        "tmp" ⟨[]⟩ (fun _ => none)).2 (Manager.lockFileName ⟨"helmfile"⟩) = some "bad") :=
  Update_commits_before_parse ⟨"helmfile"⟩
    (fun s => if s = "bad" then Except.error "yaml: unmarshal errors" else Except.ok [])
    (fun g => Except.ok (fsWrite g (pathJoin "tmp" "requirements.lock") "bad"))
    "tmp" ⟨[]⟩ (fun _ => none) _ "bad" "yaml: unmarshal errors"
    rfl (by simp [fsWrite]) (Or.inl (by simp))

/-- A release is "dependency-managed but missing from the resolved set":
its chart reference is remote, its alias is mapped, and `Get` on its chart
name fails. -/
def releaseMissingResolved (repoMap : String → Option String)
    (resolved : ResolvedDependencies) (r : ReleaseSpec) : Bool :=
  match resolveRemoteChart r.Chart with
  | .remote repo chart =>
    (repoMap repo).isSome &&
      (match resolved.Get chart with
       | .error _ => true
       | .ok _ => false)
  | _ => false

/-- `Get` fails only with the not-found message for the chart asked. -/
theorem Get_error_eq (d : ResolvedDependencies) (chart e : String)
    (h : d.Get chart = Except.error e) : e = notFoundMsg chart := by
  unfold ResolvedDependencies.Get at h
  cases hl : lookupResolved d.deps chart with
  | none =>
    rw [hl] at h
    dsimp only at h
    exact (Except.error.inj h).symm
  | some dep =>
    rw [hl] at h
    dsimp only at h
    simp at h

/-- If every release classifies without panicking and some release in the
list is dependency-managed but missing from the resolved set, the merge
loop exits with a not-found error (it never silently skips the release). -/
theorem mergeLoop_err_of_missing (repoMap : String → Option String)
    (resolved : ResolvedDependencies) :
    ∀ l : List ReleaseSpec,
      (∀ r ∈ l, (resolveRemoteChart r.Chart).isPanicked = false) →
      (∃ r ∈ l, releaseMissingResolved repoMap resolved r = true) →
      ∃ c, (mergeLoop repoMap (some resolved) l).1 = .err (notFoundMsg c) := by
  intro l
  induction l with
  | nil =>
    intro _ hbad
    rcases hbad with ⟨r, hr, _⟩
    cases hr
  | cons r rest ih =>
    intro hclean hbad
    have hcr := hclean r (List.mem_cons_self r rest)
    have htail : ∀ x ∈ rest, (resolveRemoteChart x.Chart).isPanicked = false :=
      fun x hx => hclean x (List.mem_cons_of_mem r hx)
    cases hcl : resolveRemoteChart r.Chart with
    | panicked msg =>
      rw [hcl] at hcr
      simp [ChartClass.isPanicked] at hcr
    | loc =>
      have hrest : ∃ x ∈ rest, releaseMissingResolved repoMap resolved x = true := by
        rcases hbad with ⟨x, hx, hmiss⟩
        rcases List.mem_cons.mp hx with hxr | hxrest
        · subst hxr
          simp only [releaseMissingResolved, hcl] at hmiss
          simp at hmiss
        · exact ⟨x, hxrest, hmiss⟩
      rcases ih htail hrest with ⟨c, hc⟩
      refine ⟨c, ?_⟩
      simp only [mergeLoop, hcl]
      cases hml : mergeLoop repoMap (some resolved) rest with
      | mk o rels =>
        rw [hml] at hc
        exact hc
    | remote repo chart =>
      cases hm : repoMap repo with
      | none =>
        have hrest : ∃ x ∈ rest, releaseMissingResolved repoMap resolved x = true := by
          rcases hbad with ⟨x, hx, hmiss⟩
          rcases List.mem_cons.mp hx with hxr | hxrest
          · subst hxr
            simp only [releaseMissingResolved, hcl, hm] at hmiss
            simp at hmiss
          · exact ⟨x, hxrest, hmiss⟩
        rcases ih htail hrest with ⟨c, hc⟩
        refine ⟨c, ?_⟩
        simp only [mergeLoop, hcl, hm]
        cases hml : mergeLoop repoMap (some resolved) rest with
        | mk o rels =>
          rw [hml] at hc
          exact hc
      | some url =>
        cases hg : resolved.Get chart with
        | error e =>
          refine ⟨chart, ?_⟩
          have he : e = notFoundMsg chart := Get_error_eq resolved chart e hg
          subst he
          simp [mergeLoop, hcl, hm, hg]
        | ok ver =>
          have hrest : ∃ x ∈ rest, releaseMissingResolved repoMap resolved x = true := by
            rcases hbad with ⟨x, hx, hmiss⟩
            rcases List.mem_cons.mp hx with hxr | hxrest
            · subst hxr
              simp only [releaseMissingResolved, hcl, hm, hg] at hmiss
              simp at hmiss
            · exact ⟨x, hxrest, hmiss⟩
          rcases ih htail hrest with ⟨c, hc⟩
          refine ⟨c, ?_⟩
          simp only [mergeLoop, hcl, hm, hg]
          cases hml : mergeLoop repoMap (some resolved) rest with
          | mk o rels =>
            rw [hml] at hc
            exact hc

/-- C8: when `Resolve` yields a (non-nil) resolved set and some release's
chart reference names a dependency-managed package (remote form, mapped
alias) with no entry in that set, `resolveDependencies` fails with the
not-found error rather than skipping the release. -/
theorem resolveDependencies_missing_entry_fails (st : HelmState) (depMan : Manager)
    (parse : String → Except String (List ResolvedChartDependency))
    (unresolved : UnresolvedDependencies) (fs : FS) (resolved : ResolvedDependencies)
    (hres : depMan.Resolve parse unresolved fs = (some resolved, true, none))
    (hclean : ∀ r ∈ st.Releases, (resolveRemoteChart r.Chart).isPanicked = false)
    (hbad : ∃ r ∈ st.Releases,
      releaseMissingResolved (repoToURL st.Repositories) resolved r = true) :
    ∃ c, (resolveDependencies st depMan parse unresolved fs).1 = .err (notFoundMsg c) := by
  rcases mergeLoop_err_of_missing (repoToURL st.Repositories) resolved st.Releases hclean hbad
    with ⟨c, hc⟩
  refine ⟨c, ?_⟩
  unfold resolveDependencies
  rw [hres]
  dsimp only
  cases hml : mergeLoop (repoToURL st.Repositories) (some resolved) st.Releases with
  | mk o rels =>
    rw [hml] at hc
    cases o with
    | ok a => simp at hc
    | err msg =>
      dsimp only at hc ⊢
      rw [GoResult.err.inj hc]
    | panicked msg => simp at hc

/-- Witness for C8: a lock resolving only `envoy` makes the merge of a
document referencing `myrepo/nginx` fail with the not-found error. -/
theorem resolveDependencies_missing_entry_fails_witness :
    ∃ c, (resolveDependencies ⟨"helmfile.yaml", [⟨"myrepo", "u"⟩], [⟨"myrepo/nginx", ""⟩]⟩
        ⟨"helmfile"⟩
        (fun s => if s = "L" then Except.ok [⟨"envoy", "u", "1.2.3"⟩] else Except.ok [])
        ⟨[⟨"nginx", "u", ""⟩]⟩
        (fun p => if p = "helmfile.lock" then some "L" else none)).1 =
      .err (notFoundMsg c) :=
  resolveDependencies_missing_entry_fails
    ⟨"helmfile.yaml", [⟨"myrepo", "u"⟩], [⟨"myrepo/nginx", ""⟩]⟩ ⟨"helmfile"⟩
    (fun s => if s = "L" then Except.ok [⟨"envoy", "u", "1.2.3"⟩] else Except.ok [])
    ⟨[⟨"nginx", "u", ""⟩]⟩
    (fun p => if p = "helmfile.lock" then some "L" else none)
    ⟨[⟨"envoy", "u", "1.2.3"⟩]⟩ (by decide) (by decide) (by decide)
